import Mathlib

/-
Verification of the document summarization strategy engine
(document_summary_service) of the AI-LegalDocAnalysis repository.

The engine's Python sources are not present in the repository snapshot;
only its README (src/backend/services/document_summary_service/README.md)
is.  The definitions below are therefore modelled from the specification
(spec.md sections 3, 4, 7, 8) and from the README, as noted on each
definition.  Content is modelled after tokenization: a document is a list
of tokens, its token count is the list length, and content that is empty
or whitespace-only is the empty token list (a whitespace-only string
yields no tokens).
-/

set_option maxRecDepth 40000

namespace DocSummary

/-- A token produced by the model family's tokenizer. -/
abbrev Token := Nat

/-- Document content after tokenization; token count is the length. -/
abbrev Content := List Token

/-- Modelled from the spec: DocumentType is the enumerated dispatch key
`legal_contract | email | financial_report | technical_manual |
news_article | medical_record | general` (spec section 3). -/
inductive DocumentType where
  | legal_contract
  | email
  | financial_report
  | technical_manual
  | news_article
  | medical_record
  | general
deriving DecidableEq, Repr

/-- Modelled from the spec: ModelConfig is the value object
with model identifier, max_input_tokens and reserved_output_tokens
(spec section 3). -/
structure ModelConfig where
  model_name : String
  max_input_tokens : Nat
  reserved_output_tokens : Nat
deriving DecidableEq, Repr

/-- Modelled from the spec: the token budget of a configuration is
`max_input_tokens - reserved_output_tokens` (spec glossary). -/
def tokenBudget (cfg : ModelConfig) : Nat :=
  cfg.max_input_tokens - cfg.reserved_output_tokens

/-- The legal_contract entry of MODEL_CONFIGS, taken verbatim from
src/backend/services/document_summary_service/README.md (Configuration
section): model "microsoft/DialoGPT-medium", 1024 max tokens, 200
reserved output tokens. -/
def legalContractConfig : ModelConfig :=
  { model_name := "microsoft/DialoGPT-medium"
  , max_input_tokens := 1024
  , reserved_output_tokens := 200 }

/-- Modelled from the spec: the default/general configuration.  The spec
(section 4.1) requires a general entry but states no concrete values;
the values here are fixed placeholders and no theorem depends on them. -/
def generalConfig : ModelConfig :=
  { model_name := "general-default-model"
  , max_input_tokens := 1024
  , reserved_output_tokens := 150 }

/-- Modelled from the spec: `configFor(documentType) -> ModelConfig`,
total and pure; a missing explicit entry returns the general
configuration (spec section 4.1).  The legal_contract entry comes from
the README; the registry's other concrete entries are not in the
available sources, so they fall to the general configuration. -/
def configFor : DocumentType → ModelConfig
  | .legal_contract => legalContractConfig
  | _ => generalConfig

/-! ## Chunking Service -/

/-- Modelled from the spec: the error signals of the Chunking Service
(spec section 4.2). -/
inductive ChunkError where
  | invalidChunkParameters
  | emptyContent
deriving DecidableEq, Repr

/-- Modelled from the spec: the core splitting loop of the Chunking
Service (spec section 4.2), on already-validated parameters.  Each chunk
takes up to `maxT` tokens; consecutive chunks overlap in their last/first
`overlap` tokens, so the window advances by `maxT - overlap` tokens.  The
spec's boundary-preference heuristic is explicitly not bit-exact (spec
section 9, open question); per that note the model uses the hard token
cut and is validated against the budget property.  The `maxT ≤ overlap`
disjunct of the guard is unreachable under the preconditions enforced by
`split` and only makes the recursion well-founded. -/
def splitCore (maxT overlap : Nat) (tokens : Content) : List Content :=
  if h : tokens.length ≤ maxT ∨ maxT ≤ overlap then
    [tokens]
  else
    tokens.take maxT :: splitCore maxT overlap (tokens.drop (maxT - overlap))
termination_by tokens.length
decreasing_by
  push_neg at h
  have h1 : maxT < tokens.length := h.1
  have h2 : overlap < maxT := h.2
  simp only [List.length_drop]
  omega

/-- Modelled from the spec: `split(content, maxTokens, overlapTokens)`
(spec section 4.2).  Preconditions `maxTokens > 0`,
`0 ≤ overlapTokens < maxTokens`; signals InvalidChunkParameters when they
are violated and EmptyContent when content is empty or whitespace-only
(the empty token list); otherwise returns the ordered chunk sequence.
Parameters are integers so that the negative-parameter precondition is
expressible. -/
def split (content : Content) (maxTokens overlapTokens : Int) :
    Except ChunkError (List Content) :=
  if maxTokens ≤ 0 ∨ overlapTokens < 0 ∨ maxTokens ≤ overlapTokens then
    .error .invalidChunkParameters
  else if content.isEmpty then
    .error .emptyContent
  else
    .ok (splitCore maxTokens.toNat overlapTokens.toNat content)

/-- Ceiling division, the chunk-count bound of spec section 4.2. -/
def ceilDiv (n s : Nat) : Nat := (n + s - 1) / s

/-- Modelled from the spec: rejoining a chunk sequence by keeping the
first chunk whole and removing each later chunk's leading overlap with
its predecessor (spec section 8, round-trip property). -/
def joinRest (overlap : Nat) : List Content → Content
  | [] => []
  | c :: cs => c.drop overlap ++ joinRest overlap cs

/-- Modelled from the spec: concatenating the chunks in sequence order
minus their overlaps (spec section 8, round-trip property). -/
def joinChunks (overlap : Nat) : List Content → Content
  | [] => []
  | c :: cs => c ++ joinRest overlap cs

/-! ## Strategies and the facade -/

/-- Modelled from the spec: the service's error taxonomy (spec section 7). -/
inductive SummaryError where
  | emptyContent
  | invalidChunkParameters
  | modelLoad
  | summaryGeneration
  | tokenLimitExceeded
  | documentTypeNotSupported
deriving DecidableEq, Repr

/-- Modelled from the spec: failures the inference backend can report for
one attempt (spec sections 4.4 and 7): the model could not be loaded, or
it ran but produced no usable output. -/
inductive BackendError where
  | modelLoad
  | generationFailed
deriving DecidableEq, Repr

/-- Modelled from the spec: the injected inference backend
`generate(modelId, prompt, maxOutputTokens)` (spec section 6), as a
function from the prompt and the attempt number to that attempt's
outcome; summaries are returned in token form so that the reduce pass
can re-measure them with the same tokenizer. -/
abbrev Backend := Content → Nat → Except BackendError Content

/-- Modelled from the spec: the bounded retry count for ModelLoadError
(spec section 7); the spec fixes no concrete number. -/
def maxModelLoadRetries : Nat := 3

/-- Modelled from the spec: one invocation round: attempts are retried on
ModelLoadError while the fuel lasts (bounded retry, spec section 7); a
generation failure is reported to the caller of this round. -/
def tryAttempts (b : Backend) (prompt : Content) :
    Nat → Nat → Except SummaryError Content
  | _, 0 => .error .modelLoad
  | attempt, fuel + 1 =>
    match b prompt attempt with
    | .ok out => .ok out
    | .error .modelLoad => tryAttempts b prompt (attempt + 1) fuel
    | .error .generationFailed => .error .summaryGeneration

/-- Modelled from the spec: generate with the retry policy of spec
section 7: ModelLoadError is retried a bounded number of times, and
SummaryGenerationError is retried once with the same input before
surfacing. -/
def generateWithRetry (b : Backend) (prompt : Content) :
    Except SummaryError Content :=
  match tryAttempts b prompt 0 (maxModelLoadRetries + 1) with
  | .error .summaryGeneration =>
      tryAttempts b prompt (maxModelLoadRetries + 1) (maxModelLoadRetries + 1)
  | r => r

/-- Modelled from the spec: one model invocation for one chunk or prompt.
The token-limit check happens before any backend call:
TokenLimitExceededError is surfaced immediately and never retried (spec
sections 4.4 and 7). -/
def invokeModel (b : Backend) (cfg : ModelConfig) (prompt : Content) :
    Except SummaryError Content :=
  if cfg.max_input_tokens < prompt.length + cfg.reserved_output_tokens then
    .error .tokenLimitExceeded
  else
    generateWithRetry b prompt

/-- Modelled from the spec: the overlap used when a strategy delegates to
the Chunking Service is a fixed fraction (10 percent) of the budget
(spec section 4.4). -/
def overlapFor (bdg : Nat) : Nat := bdg / 10

/-- Modelled from the spec: the safety cap on reduce-pass recursion depth
(spec sections 4.4 and 9); the spec fixes no concrete number. -/
def reduceDepthCap : Nat := 5

/-- Modelled from the spec: the recursive reduce pass (spec section 4.4):
the concatenation of per-chunk summaries is summarized in one model call
when it fits the budget, else re-chunked and re-summarized, recursively,
with a depth cap; the result carries the number of reduce iterations
performed.  What happens when the cap is exhausted is unspecified by the
spec; the model fails with SummaryGenerationError there. -/
def reduceLoop (b : Backend) (cfg : ModelConfig) :
    Nat → Content → Except SummaryError (Content × Nat)
  | 0, _ => .error .summaryGeneration
  | depth + 1, combined =>
    if combined.length ≤ tokenBudget cfg then
      match invokeModel b cfg combined with
      | .error e => .error e
      | .ok s => .ok (s, 1)
    else
      match split combined (tokenBudget cfg) (overlapFor (tokenBudget cfg)) with
      | .error .invalidChunkParameters => .error .invalidChunkParameters
      | .error .emptyContent => .error .emptyContent
      | .ok chunks =>
        match chunks.mapM (invokeModel b cfg) with
        | .error e => .error e
        | .ok summaries =>
          match reduceLoop b cfg depth summaries.flatten with
          | .error e => .error e
          | .ok (out, iters) => .ok (out, iters + 1)

/-- Result of one strategy run: the summary and how many chunks the
Chunking Service actually produced for the original content. -/
structure StrategyResult where
  summary : Content
  chunkCount : Nat
deriving DecidableEq, Repr

/-- Modelled from the spec: the shared base-strategy behavior (spec
section 4.4): look up the budget; content within budget is summarized in
one model call (one chunk); otherwise delegate to the Chunking Service
with the budget and a 10 percent overlap, invoke the model once per
chunk, and run the reduce pass on the concatenated per-chunk
summaries. -/
def runStrategy (b : Backend) (cfg : ModelConfig) (content : Content) :
    Except SummaryError StrategyResult :=
  let bdg := tokenBudget cfg
  if content.length ≤ bdg then
    match invokeModel b cfg content with
    | .error e => .error e
    | .ok s => .ok ⟨s, 1⟩
  else
    match split content bdg (overlapFor bdg) with
    | .error .invalidChunkParameters => .error .invalidChunkParameters
    | .error .emptyContent => .error .emptyContent
    | .ok chunks =>
      match chunks.mapM (invokeModel b cfg) with
      | .error e => .error e
      | .ok summaries =>
        match reduceLoop b cfg reduceDepthCap summaries.flatten with
        | .error e => .error e
        | .ok (out, _) => .ok ⟨out, chunks.length⟩

/-! ## Factory -/

/-- A strategy instance: its reported name and the DocumentType variant
it implements (the Strategy Pattern's closed variant set, spec
section 9). -/
structure Strategy where
  name : String
  docType : DocumentType
deriving DecidableEq, Repr

/-- Modelled from the spec: the registered strategy for each
DocumentType; registration is total over the closed variant set (spec
sections 4.3 and 4.4), and the strategy name is the document-type
identifier (spec section 8, scenario A). -/
def strategyFor : DocumentType → Strategy
  | .legal_contract => ⟨"legal_contract", .legal_contract⟩
  | .email => ⟨"email", .email⟩
  | .financial_report => ⟨"financial_report", .financial_report⟩
  | .technical_manual => ⟨"technical_manual", .technical_manual⟩
  | .news_article => ⟨"news_article", .news_article⟩
  | .medical_record => ⟨"medical_record", .medical_record⟩
  | .general => ⟨"general", .general⟩

/-- Modelled from the spec: the fixed lookup table from classification
labels to DocumentType (spec section 4.3, step 2; the spec names the
example "contract" mapping to legal_contract). -/
def classificationTable : List (String × DocumentType) :=
  [("contract", .legal_contract), ("email", .email)]

/-- Modelled from the spec: the total label mapping of Factory step 2:
every label maps to some DocumentType, defaulting to general (spec
section 4.3). -/
def classificationToType (label : String) : DocumentType :=
  match classificationTable.lookup label with
  | some t => t
  | none => .general

/-- Modelled from the spec: Factory resolution
`resolve(documentType?, classificationLabel?)` (spec section 4.3):
an explicit type wins, else the classification label is mapped through
the total lookup, else the general strategy; total, never an error. -/
def resolve (dt : Option DocumentType) (label : Option String) : Strategy :=
  match dt with
  | some t => strategyFor t
  | none =>
    match label with
    | some l => strategyFor (classificationToType l)
    | none => strategyFor .general

/-! ## Facade -/

/-- Modelled from the spec: the SummaryResponse output object (spec
section 3). -/
structure SummaryResponse where
  summary : Content
  document_type_used : DocumentType
  strategy_name : String
  chunked : Bool
  chunk_count : Nat
  warnings : List String
deriving DecidableEq, Repr

/-- Modelled from the spec: the facade's shared body (spec section 4.5):
validate content is non-empty (else EmptyContentError, before any model
work), run the resolved strategy over its configuration, and populate
chunked and chunk_count from what the chunking actually produced. -/
def summarizeResolved (b : Backend) (st : Strategy) (content : Content) :
    Except SummaryError SummaryResponse :=
  if content.isEmpty then
    .error .emptyContent
  else
    match runStrategy b (configFor st.docType) content with
    | .error e => .error e
    | .ok r =>
      .ok { summary := r.summary
          , document_type_used := st.docType
          , strategy_name := st.name
          , chunked := decide (1 < r.chunkCount)
          , chunk_count := r.chunkCount
          , warnings := [] }

/-- Modelled from the spec: `summarizeDocument(content, documentType?)`
(spec section 4.5). -/
def summarizeDocument (b : Backend) (content : Content)
    (dt : Option DocumentType) : Except SummaryError SummaryResponse :=
  summarizeResolved b (resolve dt none) content

/-- Modelled from the spec:
`summarizeWithClassification(content, classificationLabel)` (spec
section 4.5). -/
def summarizeWithClassification (b : Backend) (content : Content)
    (label : String) : Except SummaryError SummaryResponse :=
  summarizeResolved b (resolve none (some label)) content

/-! ## Reassembly of concurrent per-chunk results -/

/-- Modelled from the spec: per-chunk model invocations may complete in
any order; reassembly is keyed by chunk index, not completion order
(spec section 5).  `results` lists completions as (chunk index, summary)
pairs in completion order; the reassembled sequence reads index 0 up to
`n - 1`. -/
def reassemble (results : List (Nat × Content)) (n : Nat) : List Content :=
  (List.range n).map fun i =>
    ((results.find? fun p => p.1 == i).map Prod.snd).getD []

/-! ## Helper lemmas about the splitting loop -/

theorem splitCore_cons (maxT ov : Nat) (xs : Content) :
    ∃ c cs, splitCore maxT ov xs = c :: cs ∧
      min maxT xs.length ≤ c.length := by
  rw [splitCore]
  split
  next h =>
    exact ⟨xs, [], rfl, Nat.min_le_right _ _⟩
  next h =>
    refine ⟨xs.take maxT, _, rfl, ?_⟩
    simp [List.length_take]

theorem splitCore_chunk_le (maxT ov : Nat) (xs : Content) (hov : ov < maxT) :
    ∀ c ∈ splitCore maxT ov xs, c.length ≤ maxT := by
  rw [splitCore]
  split
  next h =>
    intro c hc
    simp only [List.mem_singleton] at hc
    subst hc
    omega
  next h =>
    push_neg at h
    intro c hc
    simp only [List.mem_cons] at hc
    rcases hc with rfl | hc
    · simp [List.length_take]
    · exact splitCore_chunk_le maxT ov _ hov c hc
termination_by xs.length
decreasing_by
  simp only [List.length_drop]
  omega

theorem splitCore_count_ge_two (maxT ov : Nat) (xs : Content)
    (hov : ov < maxT) (hbig : maxT < xs.length) :
    2 ≤ (splitCore maxT ov xs).length := by
  rw [splitCore]
  split
  next h => omega
  next h =>
    obtain ⟨c, cs, hsp, _⟩ := splitCore_cons maxT ov (xs.drop (maxT - ov))
    simp [hsp]

theorem ceilDiv_of_le (n s : Nat) (hs : 0 < s) (hn : s ≤ n) :
    ceilDiv n s = ceilDiv (n - s) s + 1 := by
  unfold ceilDiv
  have hsplit : n + s - 1 = (n - s + s - 1) + s := by omega
  rw [hsplit, Nat.add_div_right _ hs]

theorem ceilDiv_pos (n s : Nat) (hs : 0 < s) (hn : 0 < n) :
    1 ≤ ceilDiv n s := by
  unfold ceilDiv
  rw [Nat.le_div_iff_mul_le hs]
  omega

theorem splitCore_count_le (maxT ov : Nat) (xs : Content)
    (hov : ov < maxT) (hne : 0 < xs.length) :
    (splitCore maxT ov xs).length ≤ ceilDiv xs.length (maxT - ov) := by
  rw [splitCore]
  split
  next h =>
    simpa using ceilDiv_pos xs.length (maxT - ov) (by omega) hne
  next h =>
    push_neg at h
    have hrec := splitCore_count_le maxT ov (xs.drop (maxT - ov)) hov
      (by simp only [List.length_drop]; omega)
    rw [ceilDiv_of_le xs.length (maxT - ov) (by omega) (by omega)]
    simp only [List.length_cons, List.length_drop] at hrec ⊢
    omega
termination_by xs.length
decreasing_by
  simp only [List.length_drop]
  omega

theorem joinChunks_splitCore (maxT ov : Nat) (xs : Content)
    (hov : ov < maxT) :
    joinChunks ov (splitCore maxT ov xs) = xs := by
  rw [splitCore]
  split
  next h =>
    simp [joinChunks, joinRest]
  next h =>
    push_neg at h
    obtain ⟨c, cs, hsp, hc⟩ := splitCore_cons maxT ov (xs.drop (maxT - ov))
    have hrec := joinChunks_splitCore maxT ov (xs.drop (maxT - ov)) hov
    rw [hsp] at hrec
    rw [hsp]
    simp only [joinChunks, joinRest] at hrec ⊢
    have hcov : ov ≤ c.length := by
      simp only [List.length_drop] at hc
      omega
    have hdrop : c.drop ov ++ joinRest ov cs =
        (c ++ joinRest ov cs).drop ov := by
      rw [List.drop_append_eq_append_drop, Nat.sub_eq_zero_of_le hcov,
        List.drop_zero]
    rw [hdrop, hrec, List.drop_drop]
    have hsum : maxT - ov + ov = maxT := by omega
    rw [hsum, List.take_append_drop]
termination_by xs.length
decreasing_by
  simp only [List.length_drop]
  omega

theorem split_ok_elim (content : Content) (mt ot : Int)
    (chunks : List Content) (hok : split content mt ot = .ok chunks) :
    0 < mt ∧ 0 ≤ ot ∧ ot < mt ∧ content ≠ [] ∧
      chunks = splitCore mt.toNat ot.toNat content := by
  unfold split at hok
  split at hok
  next h => exact absurd hok (by simp)
  next h =>
    push_neg at h
    split at hok
    next hemp => exact absurd hok (by simp)
    next hemp =>
      refine ⟨by omega, by omega, by omega, by simpa using hemp, ?_⟩
      exact (Except.ok.inj hok).symm

theorem tokenBudget_eq (cfg : ModelConfig) :
    tokenBudget cfg = cfg.max_input_tokens - cfg.reserved_output_tokens := rfl

theorem budget_toNat (cfg : ModelConfig) :
    ((cfg.max_input_tokens : Int) - (cfg.reserved_output_tokens : Int)).toNat
      = tokenBudget cfg := by
  rw [tokenBudget_eq]
  omega

theorem runStrategy_fit_count (b : Backend) (cfg : ModelConfig)
    (content : Content) (r : StrategyResult)
    (hfit : content.length ≤ tokenBudget cfg)
    (hok : runStrategy b cfg content = .ok r) :
    r.chunkCount = 1 := by
  simp only [runStrategy] at hok
  rw [if_pos hfit] at hok
  split at hok
  next => exact absurd hok (by simp)
  next s hs => cases Except.ok.inj hok; rfl

/-! ## Claims -/

theorem split_budget_chunk_fits (cfg : ModelConfig) (ov : Int)
    (content : Content) (chunks : List Content)
    (hok : split content
      ((cfg.max_input_tokens : Int) - (cfg.reserved_output_tokens : Int)) ov
      = .ok chunks) :
    ∀ c ∈ chunks,
      c.length + cfg.reserved_output_tokens ≤ cfg.max_input_tokens := by
  obtain ⟨hmt, hot, hlt, hne, hchunks⟩ := split_ok_elim _ _ _ _ hok
  subst hchunks
  intro c hc
  have hov : ov.toNat <
      ((cfg.max_input_tokens : Int) - (cfg.reserved_output_tokens : Int)).toNat := by
    omega
  have hle := splitCore_chunk_le _ _ content hov c hc
  have hbn := budget_toNat cfg
  have hbe := tokenBudget_eq cfg
  omega

/-- C1: for every chunk emitted by split(content, maxTokens, overlapTokens)
with maxTokens equal to the ModelConfig's max_input_tokens minus
reserved_output_tokens, the chunk's token count plus
reserved_output_tokens is at most max_input_tokens. -/
theorem C1_chunk_budget (cfg : ModelConfig) (ov : Int) (content : Content)
    (chunks : List Content)
    (hok : split content
      ((cfg.max_input_tokens : Int) - (cfg.reserved_output_tokens : Int)) ov
      = .ok chunks) :
    ∀ c ∈ chunks,
      c.length + cfg.reserved_output_tokens ≤ cfg.max_input_tokens :=
  split_budget_chunk_fits cfg ov content chunks hok

theorem C1_chunk_budget_witness :
    split (List.range 20) ((10 : Int) - (3 : Int)) 2
      = .ok (splitCore 7 2 (List.range 20)) ∧
    ∀ c ∈ splitCore 7 2 (List.range 20), c.length + 3 ≤ 10 :=
  ⟨by rfl,
   C1_chunk_budget ⟨"m", 10, 3⟩ 2 (List.range 20)
     (splitCore 7 2 (List.range 20)) (by rfl)⟩

/-- C2: for non-empty content within the resolved model's token budget
the response has chunked = false and chunk_count = 1; and content whose
token count exceeds the budget yields at least 2 and at most
ceil(contentTokens / (maxTokens - overlapTokens)) chunks. -/
theorem C2_chunk_counts :
    (∀ (b : Backend) (content : Content) (dt : Option DocumentType)
        (resp : SummaryResponse),
        summarizeDocument b content dt = .ok resp →
        content.length ≤ tokenBudget (configFor (resolve dt none).docType) →
        resp.chunked = false ∧ resp.chunk_count = 1) ∧
    (∀ (cfg : ModelConfig) (ov : Int) (content : Content)
        (chunks : List Content),
        split content
          ((cfg.max_input_tokens : Int) - (cfg.reserved_output_tokens : Int)) ov
          = .ok chunks →
        tokenBudget cfg < content.length →
        2 ≤ chunks.length ∧
          chunks.length ≤ ceilDiv content.length (tokenBudget cfg - ov.toNat)) := by
  constructor
  · intro b content dt resp hok hfit
    unfold summarizeDocument summarizeResolved at hok
    split at hok
    next hemp => exact absurd hok (by simp)
    next hemp =>
      split at hok
      next e he => exact absurd hok (by simp)
      next r hr =>
        have hcount := runStrategy_fit_count b _ content r hfit hr
        cases Except.ok.inj hok
        simp [hcount]
  · intro cfg ov content chunks hok hbig
    obtain ⟨hmt, hot, hlt, hne, hchunks⟩ := split_ok_elim _ _ _ _ hok
    subst hchunks
    rw [budget_toNat cfg]
    have hbe := tokenBudget_eq cfg
    have hov : ov.toNat < tokenBudget cfg := by omega
    constructor
    · exact splitCore_count_ge_two _ _ content hov hbig
    · exact splitCore_count_le _ _ content hov (by omega)

theorem C2_chunk_counts_witness :
    ((SummaryResponse.chunked
        ⟨[0], .email, "email", false, 1, []⟩ = false ∧
      SummaryResponse.chunk_count
        ⟨[0], .email, "email", false, 1, []⟩ = 1)) ∧
    (2 ≤ (splitCore 7 2 (List.range 20)).length ∧
      (splitCore 7 2 (List.range 20)).length ≤ ceilDiv 20 (7 - 2)) :=
  ⟨C2_chunk_counts.1 (fun _ _ => .ok [0]) [1, 2, 3] (some .email)
      ⟨[0], .email, "email", false, 1, []⟩ (by rfl) (by decide),
   C2_chunk_counts.2 ⟨"m", 10, 3⟩ 2 (List.range 20)
      (splitCore 7 2 (List.range 20)) (by rfl) (by decide)⟩

/-- C4: concatenating the chunks of split in sequence order, after
removing each chunk's leading overlap with its predecessor, reconstructs
the original content exactly. -/
theorem C4_roundtrip (content : Content) (mt ot : Int)
    (chunks : List Content) (hok : split content mt ot = .ok chunks) :
    joinChunks ot.toNat chunks = content := by
  obtain ⟨hmt, hot, hlt, hne, hchunks⟩ := split_ok_elim _ _ _ _ hok
  subst hchunks
  exact joinChunks_splitCore mt.toNat ot.toNat content (by omega)

theorem C4_roundtrip_witness :
    joinChunks (2 : Int).toNat (splitCore 7 2 (List.range 20))
      = List.range 20 :=
  C4_roundtrip (List.range 20) 7 2 (splitCore 7 2 (List.range 20)) (by rfl)

/-- C9: split signals InvalidChunkParameters exactly when its
preconditions are violated: maxTokens ≤ 0, or overlapTokens < 0, or
overlapTokens ≥ maxTokens; split is a pure function of its arguments. -/
theorem C9_invalid_params_iff (content : Content) (mt ot : Int) :
    split content mt ot = .error .invalidChunkParameters ↔
      (mt ≤ 0 ∨ ot < 0 ∨ mt ≤ ot) := by
  unfold split
  constructor
  · intro h
    by_contra hcond
    rw [if_neg hcond] at h
    split at h <;> simp_all
  · intro hcond
    rw [if_pos hcond]

/-- C10: the shipped registry's legal_contract entry is the model
"microsoft/DialoGPT-medium" with 1024 max input tokens and 200 reserved
output tokens (README MODEL_CONFIGS), so every legal_contract chunk fits
within an effective budget of 824 tokens. -/
theorem C10_legal_contract_config :
    configFor .legal_contract =
      { model_name := "microsoft/DialoGPT-medium"
      , max_input_tokens := 1024
      , reserved_output_tokens := 200 } ∧
    tokenBudget (configFor .legal_contract) = 824 ∧
    ∀ (ov : Int) (content : Content) (chunks : List Content),
      split content ((1024 : Int) - (200 : Int)) ov = .ok chunks →
      ∀ c ∈ chunks, c.length ≤ 824 := by
  refine ⟨rfl, rfl, ?_⟩
  intro ov content chunks hok c hc
  obtain ⟨hmt, hot, hlt, hne, hchunks⟩ := split_ok_elim _ _ _ _ hok
  subst hchunks
  have hov : ov.toNat < ((1024 : Int) - (200 : Int)).toNat := by omega
  have hle := splitCore_chunk_le _ _ content hov c hc
  omega

theorem C10_legal_contract_config_witness :
    ∀ c ∈ splitCore 824 82 (List.range 900), c.length ≤ 824 :=
  C10_legal_contract_config.2.2 82 (List.range 900)
    (splitCore 824 82 (List.range 900)) (by rfl)

/-- C3: Factory resolution order: an explicit documentType wins; else a
given classificationLabel is mapped through the fixed total lookup table,
defaulting to the general strategy for unmapped labels; else the general
strategy; resolution is a total function, so it succeeds on every input
and never raises an error. -/
theorem C3_factory_resolution :
    (∀ (dt : DocumentType) (label : Option String),
        resolve (some dt) label = strategyFor dt) ∧
    (∀ l : String,
        resolve none (some l) = strategyFor (classificationToType l)) ∧
    (∀ l : String, classificationTable.lookup l = none →
        resolve none (some l) = strategyFor .general) ∧
    resolve none none = strategyFor .general := by
  refine ⟨fun dt label => rfl, fun l => rfl, ?_, rfl⟩
  intro l hl
  simp only [resolve, classificationToType, hl]

theorem C3_factory_resolution_witness :
    resolve none (some "unknown-xyz") = strategyFor .general :=
  C3_factory_resolution.2.2.1 "unknown-xyz" (by rfl)

theorem tryAttempts_ne_tokenLimit (b : Backend) (prompt : Content) :
    ∀ (fuel attempt : Nat),
      tryAttempts b prompt attempt fuel ≠ .error .tokenLimitExceeded := by
  intro fuel
  induction fuel with
  | zero => intro attempt; simp [tryAttempts]
  | succ n ih =>
    intro attempt
    unfold tryAttempts
    split
    next => simp
    next => exact ih (attempt + 1)
    next => simp

theorem generateWithRetry_ne_tokenLimit (b : Backend) (prompt : Content) :
    generateWithRetry b prompt ≠ .error .tokenLimitExceeded := by
  have h0 := tryAttempts_ne_tokenLimit b prompt (maxModelLoadRetries + 1) 0
  have h1 := tryAttempts_ne_tokenLimit b prompt (maxModelLoadRetries + 1)
    (maxModelLoadRetries + 1)
  unfold generateWithRetry
  cases h : tryAttempts b prompt 0 (maxModelLoadRetries + 1) with
  | ok v => simp
  | error e => cases e <;> simp_all

/-- C5: when every chunk comes from split at the configuration's budget,
the TokenLimitExceededError branch of model invocation is unreachable;
and when a prompt does violate the limit, invokeModel returns
TokenLimitExceededError identically for every backend, so the error is
surfaced immediately, with no backend call and no retry. -/
theorem C5_token_limit :
    (∀ (b : Backend) (cfg : ModelConfig) (ov : Int) (content : Content)
        (chunks : List Content),
        split content
          ((cfg.max_input_tokens : Int) - (cfg.reserved_output_tokens : Int)) ov
          = .ok chunks →
        ∀ c ∈ chunks, invokeModel b cfg c ≠ .error .tokenLimitExceeded) ∧
    (∀ (b b' : Backend) (cfg : ModelConfig) (prompt : Content),
        cfg.max_input_tokens < prompt.length + cfg.reserved_output_tokens →
        invokeModel b cfg prompt = .error .tokenLimitExceeded ∧
        invokeModel b cfg prompt = invokeModel b' cfg prompt) := by
  constructor
  · intro b cfg ov content chunks hok c hc
    have hfit := split_budget_chunk_fits cfg ov content chunks hok c hc
    unfold invokeModel
    rw [if_neg (by omega)]
    exact generateWithRetry_ne_tokenLimit b c
  · intro b b' cfg prompt hbig
    constructor
    · unfold invokeModel
      rw [if_pos hbig]
    · unfold invokeModel
      rw [if_pos hbig, if_pos hbig]

theorem C5_token_limit_witness :
    (∀ c ∈ splitCore 7 2 (List.range 20),
        invokeModel (fun _ _ => .ok [0]) ⟨"m", 10, 3⟩ c
          ≠ .error .tokenLimitExceeded) ∧
    (invokeModel (fun _ _ => .ok [0]) ⟨"m", 10, 3⟩ (List.range 20)
        = .error .tokenLimitExceeded ∧
      invokeModel (fun _ _ => .ok [0]) ⟨"m", 10, 3⟩ (List.range 20)
        = invokeModel (fun _ _ => .error .modelLoad) ⟨"m", 10, 3⟩
            (List.range 20)) :=
  ⟨C5_token_limit.1 (fun _ _ => .ok [0]) ⟨"m", 10, 3⟩ 2 (List.range 20)
      (splitCore 7 2 (List.range 20)) (by rfl),
   C5_token_limit.2 (fun _ _ => .ok [0]) (fun _ _ => .error .modelLoad)
      ⟨"m", 10, 3⟩ (List.range 20) (by decide)⟩

/-- C6: for content that is empty or whitespace-only (the empty token
list), summarizeDocument and summarizeWithClassification fail with
EmptyContentError for every backend, so no model invocation occurs and
nothing is retried; and split signals EmptyContent on such content
whenever its parameters are valid. -/
theorem C6_empty_content :
    (∀ (b : Backend) (dt : Option DocumentType) (content : Content),
        content.isEmpty = true →
        summarizeDocument b content dt = .error .emptyContent) ∧
    (∀ (b : Backend) (l : String) (content : Content),
        content.isEmpty = true →
        summarizeWithClassification b content l = .error .emptyContent) ∧
    (∀ (content : Content) (mt ot : Int),
        content.isEmpty = true → 0 < mt → 0 ≤ ot → ot < mt →
        split content mt ot = .error .emptyContent) := by
  refine ⟨?_, ?_, ?_⟩
  · intro b dt content hemp
    unfold summarizeDocument summarizeResolved
    rw [if_pos hemp]
  · intro b l content hemp
    unfold summarizeWithClassification summarizeResolved
    rw [if_pos hemp]
  · intro content mt ot hemp h1 h2 h3
    unfold split
    rw [if_neg (by omega), if_pos hemp]

theorem C6_empty_content_witness :
    (summarizeDocument (fun _ _ => .ok [0]) [] (some .email)
        = .error .emptyContent) ∧
    (summarizeWithClassification (fun _ _ => .ok [0]) [] "contract"
        = .error .emptyContent) ∧
    (split [] 7 2 = .error .emptyContent) :=
  ⟨C6_empty_content.1 (fun _ _ => .ok [0]) (some .email) [] (by rfl),
   C6_empty_content.2.1 (fun _ _ => .ok [0]) "contract" [] (by rfl),
   C6_empty_content.2.2 [] 7 2 (by rfl) (by decide) (by decide) (by decide)⟩

theorem reduceLoop_iters_le (b : Backend) (cfg : ModelConfig) :
    ∀ (depth : Nat) (combined out : Content) (iters : Nat),
      reduceLoop b cfg depth combined = .ok (out, iters) →
      iters ≤ depth := by
  intro depth
  induction depth with
  | zero =>
    intro combined out iters h
    simp [reduceLoop] at h
  | succ n ih =>
    intro combined out iters h
    unfold reduceLoop at h
    split at h
    · split at h
      next => exact absurd h (by simp)
      next s hs =>
        cases Except.ok.inj h
        omega
    · split at h
      next => exact absurd h (by simp)
      next => exact absurd h (by simp)
      next chunks hchunks =>
        split at h
        next => exact absurd h (by simp)
        next summaries hsum =>
          split at h
          next => exact absurd h (by simp)
          next out2 iters2 hrec =>
            cases Except.ok.inj h
            have := ih _ _ _ hrec
            omega

/-- C7: the reduce pass of a summary strategy terminates for every
input: the recursive re-chunk-and-summarize loop runs under an explicit
safety cap on recursion depth, and the number of reduce iterations it
performs never exceeds that cap, so no input causes unbounded
recursion. -/
theorem C7_reduce_bounded (b : Backend) (cfg : ModelConfig)
    (combined out : Content) (iters : Nat)
    (hok : reduceLoop b cfg reduceDepthCap combined = .ok (out, iters)) :
    iters ≤ reduceDepthCap :=
  reduceLoop_iters_le b cfg reduceDepthCap combined out iters hok

theorem C7_reduce_bounded_witness :
    (1 : Nat) ≤ reduceDepthCap :=
  C7_reduce_bounded (fun _ _ => .ok [0]) ⟨"m", 10, 3⟩ [1, 2, 3] [0] 1
    (by rfl)

theorem find?_unique {α : Type} (p : α → Bool) (x : α) (l : List α)
    (hx : x ∈ l) (hpx : p x = true)
    (huniq : ∀ a ∈ l, p a = true → a = x) :
    l.find? p = some x := by
  induction l with
  | nil => simp at hx
  | cons a as ih =>
    by_cases hpa : p a = true
    · have ha : a = x := huniq a (List.mem_cons_self a as) hpa
      subst ha
      rw [List.find?_cons_of_pos _ hpa]
    · rw [List.find?_cons_of_neg _ (by simpa using hpa)]
      apply ih
      · rcases List.mem_cons.mp hx with rfl | h
        · exact absurd hpx hpa
        · exact h
      · intro a2 ha2 hpa2
        exact huniq a2 (List.mem_cons_of_mem _ ha2) hpa2

/-- C8: for any completion order of per-chunk model invocations (any
permutation of the indexed per-chunk results), reassembly keyed by chunk
index yields the summaries in original document order. -/
theorem C8_order_by_index (n : Nat) (f : Nat → Content)
    (results : List (Nat × Content))
    (hperm : results.Perm ((List.range n).map fun i => (i, f i))) :
    reassemble results n = (List.range n).map f := by
  unfold reassemble
  apply List.map_congr_left
  intro i hi
  have hfind : results.find? (fun p => p.1 == i) = some (i, f i) := by
    apply find?_unique
    · rw [hperm.mem_iff]
      exact List.mem_map.mpr ⟨i, hi, rfl⟩
    · simp
    · intro a ha hpa
      have ha2 : a ∈ (List.range n).map fun j => (j, f j) :=
        hperm.mem_iff.mp ha
      obtain ⟨j, hj, rfl⟩ := List.mem_map.mp ha2
      simp only [beq_iff_eq] at hpa
      rw [hpa]
  rw [hfind]
  rfl

theorem C8_order_by_index_witness :
    reassemble [(1, [1]), (0, [0])] 2
      = (List.range 2).map (fun i => [i]) :=
  C8_order_by_index 2 (fun i => [i]) [(1, [1]), (0, [0])] (by decide)

end DocSummary
